import Mathlib

/-!
Verification of the listing-ingestion pipeline of the OrbitAgents crawler
service (src/services/crawler).  The definitions below are a shallow
embedding of the Python source:

* `schemas.py`   — enums, `MLSRawListing` validation, `NormalizedListing`
* `mls_crawler.py` — `_normalize_listings`, `_save_to_database`,
  `_index_in_opensearch`, `run_crawl_job`
* `opensearch_client.py` — `_process_bulk_response`, `bulk_index_listings`
* `main.py`      — the `trigger_crawl` handler

Numbers: Python ints are modelled as `Int`/`Nat`; the float-valued fields
(baths, latitude, longitude, lot size) are modelled as `ℚ`, which is exact
for every comparison the code performs.  Timestamps are abstract `Nat`
clock values.  Fields of the Python models that no verified property
mentions (address components, zip code, description, photos, agent,
`mls_last_updated`) are omitted from the embedding.
-/

namespace Orbit

/-- `PropertyType` enum from `schemas.py`. -/
inductive PropertyType where
  | SINGLE_FAMILY
  | CONDO
  | TOWNHOUSE
  | MULTI_FAMILY
  | LAND
  | COMMERCIAL
  | OTHER
  deriving DecidableEq, Repr

/-- `ListingStatus` enum from `schemas.py`. -/
inductive ListingStatus where
  | ACTIVE
  | PENDING
  | SOLD
  | OFF_MARKET
  | WITHDRAWN
  deriving DecidableEq, Repr

/-- Python's `str.lower()` over the character sequence (the source only
feeds it ASCII synonym keys, on which `Char.toLower` agrees with
Python). -/
def pyLower (s : String) : String :=
  ⟨s.data.map Char.toLower⟩

/-- Python's `str.strip()`: drop whitespace from both ends. -/
def pyStrip (s : String) : String :=
  ⟨((s.data.dropWhile Char.isWhitespace).reverse.dropWhile
      Char.isWhitespace).reverse⟩

/-- `raw.lower().strip()`, the canonical form both synonym dictionaries
key on. -/
def lowerStrip (s : String) : String :=
  pyStrip (pyLower s)

/-- The synonym dictionary `type_mapping` of
`NormalizedListing._normalize_property_type`, as a total lookup whose
default (`dict.get` fallback) is `PropertyType.OTHER`.  Keys are compared
after Python's `raw_type.lower().strip()`. -/
def propertyTypeLookup (k : String) : PropertyType :=
  if k = "single family" then .SINGLE_FAMILY
  else if k = "single-family" then .SINGLE_FAMILY
  else if k = "sfr" then .SINGLE_FAMILY
  else if k = "house" then .SINGLE_FAMILY
  else if k = "condo" then .CONDO
  else if k = "condominium" then .CONDO
  else if k = "townhouse" then .TOWNHOUSE
  else if k = "townhome" then .TOWNHOUSE
  else if k = "multi-family" then .MULTI_FAMILY
  else if k = "multifamily" then .MULTI_FAMILY
  else if k = "duplex" then .MULTI_FAMILY
  else if k = "land" then .LAND
  else if k = "lot" then .LAND
  else if k = "commercial" then .COMMERCIAL
  else .OTHER

/-- Whether `k` is a key of `type_mapping` (after lower/strip). -/
def isPropertyTypeKey (k : String) : Bool :=
  k = "single family" || k = "single-family" || k = "sfr" || k = "house" ||
  k = "condo" || k = "condominium" || k = "townhouse" || k = "townhome" ||
  k = "multi-family" || k = "multifamily" || k = "duplex" ||
  k = "land" || k = "lot" || k = "commercial"

/-- The synonym dictionary `status_mapping` of
`NormalizedListing._normalize_status`; the `dict.get` fallback is
`ListingStatus.ACTIVE`. -/
def statusLookup (k : String) : ListingStatus :=
  if k = "active" then .ACTIVE
  else if k = "for sale" then .ACTIVE
  else if k = "pending" then .PENDING
  else if k = "under contract" then .PENDING
  else if k = "sold" then .SOLD
  else if k = "closed" then .SOLD
  else if k = "off market" then .OFF_MARKET
  else if k = "withdrawn" then .WITHDRAWN
  else if k = "cancelled" then .WITHDRAWN
  else .ACTIVE

/-- Whether `k` is a key of `status_mapping` (after lower/strip). -/
def isStatusKey (k : String) : Bool :=
  k = "active" || k = "for sale" || k = "pending" || k = "under contract" ||
  k = "sold" || k = "closed" || k = "off market" || k = "withdrawn" ||
  k = "cancelled"

/-- `NormalizedListing._normalize_property_type`: `None` or the empty
string (Python falsy) gives `None`; otherwise the lowercased, stripped
string is looked up in the synonym dictionary with default `OTHER`. -/
def normalizePropertyType : Option String → Option PropertyType
  | none => none
  | some s => if s = "" then none else some (propertyTypeLookup (lowerStrip s))

/-- `NormalizedListing._normalize_status`: `None` or the empty string gives
`None`; otherwise lookup of the lowercased, stripped string with default
`ACTIVE`. -/
def normalizeStatus : Option String → Option ListingStatus
  | none => none
  | some s => if s = "" then none else some (statusLookup (lowerStrip s))

/-- One raw record handed to `MLSRawListing(**raw_data)`: every field is
optional because the upstream JSON may omit it (a missing required `id`
makes validation fail). -/
structure RawRecord where
  id : Option String
  beds : Option Int
  baths : Option ℚ
  price : Option Int
  lat : Option ℚ
  lon : Option ℚ
  property_type : Option String
  status : Option String
  square_feet : Option Int
  lot_size : Option ℚ
  year_built : Option Int
  deriving DecidableEq, Repr

/-- A successfully validated `MLSRawListing` (`schemas.py`): `id` is
required with `min_length=1`, the numeric fields carry their pydantic
range constraints. -/
structure MLSRawListing where
  id : String
  beds : Option Int
  baths : Option ℚ
  price : Option Int
  lat : Option ℚ
  lon : Option ℚ
  property_type : Option String
  status : Option String
  square_feet : Option Int
  lot_size : Option ℚ
  year_built : Option Int
  deriving DecidableEq, Repr

/-- The pydantic field constraints of `MLSRawListing` on the modelled
fields: `beds ∈ [0,50]`, `baths ∈ [0,50]`, `price ≥ 0` together with the
`validate_price` validator (`≤ 100_000_000_00` cents), `lat ∈ [-90,90]`,
`lon ∈ [-180,180]`, `square_feet ≥ 0`, `lot_size ≥ 0`,
`year_built ∈ [1800,2030]`. -/
def rawFieldsOk (r : RawRecord) : Bool :=
  (match r.beds with | none => true | some b => decide (0 ≤ b ∧ b ≤ 50)) &&
  (match r.baths with | none => true | some b => decide (0 ≤ b ∧ b ≤ 50)) &&
  (match r.price with | none => true | some p => decide (0 ≤ p ∧ p ≤ 10000000000)) &&
  (match r.lat with | none => true | some x => decide (-90 ≤ x ∧ x ≤ 90)) &&
  (match r.lon with | none => true | some y => decide (-180 ≤ y ∧ y ≤ 180)) &&
  (match r.square_feet with | none => true | some s => decide (0 ≤ s)) &&
  (match r.lot_size with | none => true | some s => decide (0 ≤ s)) &&
  (match r.year_built with | none => true | some y => decide (1800 ≤ y ∧ y ≤ 2030))

/-- `MLSRawListing(**raw_data)`: validation either raises (modelled as
`none`) or yields the parsed model. -/
def parseRaw (r : RawRecord) : Option MLSRawListing :=
  match r.id with
  | none => none
  | some i =>
    if i.length ≥ 1 ∧ rawFieldsOk r then
      some ⟨i, r.beds, r.baths, r.price, r.lat, r.lon, r.property_type,
            r.status, r.square_feet, r.lot_size, r.year_built⟩
    else none

/-- `NormalizedListing` (`schemas.py`), restricted to the modelled fields.
`crawledAt` is the abstract clock value taken at normalization time. -/
structure NormalizedListing where
  mls_id : String
  beds : Option Int
  baths : Option ℚ
  price : Option Int
  latitude : Option ℚ
  longitude : Option ℚ
  property_type : Option PropertyType
  status : Option ListingStatus
  square_feet : Option Int
  lot_size_acres : Option ℚ
  year_built : Option Int
  crawledAt : Nat
  raw_data_s3_key : Option String
  deriving DecidableEq, Repr

/-- `NormalizedListing.from_mls_listing`: field-for-field copy with enum
normalization, stamped with the S3 archive key. -/
def fromMlsListing (m : MLSRawListing) (s3Key : Option String) (now : Nat) :
    NormalizedListing :=
  ⟨m.id, m.beds, m.baths, m.price, m.lat, m.lon,
   normalizePropertyType m.property_type, normalizeStatus m.status,
   m.square_feet, m.lot_size, m.year_built, now, s3Key⟩

/-- The loop body of `MLSCrawler._normalize_listings`.  `total` is the
length of the full input batch (`len(raw_listings)`, fixed before the
loop).  A record whose validation raises is counted in `errors`; the
Python guard `errors > len(raw_listings) * 0.1` is checked after the
increment and, over the integers, is exactly `10 * errors > total` (the
float rounding of `0.1` cannot flip this comparison for any batch size
below `2^49`).  When the guard fires the loop `break`s, returning the
listings normalized so far — it does not raise. -/
def normalizeGo (total : Nat) (s3Key : String) (now : Nat) :
    List RawRecord → List NormalizedListing → Nat →
    List NormalizedListing × Nat
  | [], acc, errors => (acc.reverse, errors)
  | r :: rest, acc, errors =>
    match parseRaw r with
    | some m =>
      normalizeGo total s3Key now rest
        (fromMlsListing m (some s3Key) now :: acc) errors
    | none =>
      if 10 * (errors + 1) > total then (acc.reverse, errors + 1)
      else normalizeGo total s3Key now rest acc (errors + 1)

/-- `MLSCrawler._normalize_listings`: returns the normalized listings and
the error count. -/
def normalizeListings (raws : List RawRecord) (s3Key : String) (now : Nat) :
    List NormalizedListing × Nat :=
  normalizeGo raws.length s3Key now raws [] 0

/-- Structural worker for `toBatches`; `fuel` only bounds the recursion
depth (any `fuel ≥ l.length` gives the same result). -/
def toBatchesGo (n : Nat) : Nat → List α → List (List α)
  | 0, _ => []
  | _, [] => []
  | fuel + 1, a :: l =>
    (a :: l.take (n - 1)) :: toBatchesGo n fuel (l.drop (n - 1))

/-- `range(0, len(listings), batch_size)` slicing, as used by both
`_save_to_database` and `_index_in_opensearch`.  Matches Python for every
`n ≥ 1` (Python raises `ValueError` on step `0`, which no configuration
produces: `settings.batch_size` defaults to `100`). -/
def toBatches (n : Nat) (l : List α) : List (List α) :=
  toBatchesGo n l.length l

/-- One row of the `listings` table (`database.py`), restricted to the
columns the crawler writes.  The enum columns are stored as their `.value`
strings; since `PropertyType.value`/`ListingStatus.value` are injective,
the enums themselves are used here.  `created_at`/`updated_at` are the
system timestamps (`server_default func.now()`, bumped on update). -/
structure Row where
  mls_id : String
  beds : Option Int
  baths : Option ℚ
  price : Option Int
  latitude : Option ℚ
  longitude : Option ℚ
  property_type : Option PropertyType
  status : Option ListingStatus
  square_feet : Option Int
  crawled_at : Nat
  raw_data_s3_key : Option String
  created_at : Nat
  updated_at : Nat
  deriving DecidableEq, Repr

/-- The column assignments of the `update_data` dict of
`_save_to_database`: exactly the columns listed there (note: not
`mls_id`, not `raw_data_s3_key`, not `created_at`), with `updated_at`
bumped to the current clock. -/
def setFields (now : Nat) (l : NormalizedListing) (r : Row) : Row :=
  { r with beds := l.beds, baths := l.baths, price := l.price,
           latitude := l.latitude, longitude := l.longitude,
           property_type := l.property_type, status := l.status,
           square_feet := l.square_feet, crawled_at := l.crawledAt,
           updated_at := now }

/-- The `update(Listing).where(mls_id == …).values(**update_data)`
statement of `_save_to_database`, applied to one row: rows with a
different `mls_id` are unchanged. -/
def applyUpd (now : Nat) (l : NormalizedListing) (r : Row) : Row :=
  if r.mls_id = l.mls_id then setFields now l r else r

/-- The `Listing(...)` insert branch of `_save_to_database`: the columns
passed to the constructor plus the server-default timestamps. -/
def newRow (now : Nat) (l : NormalizedListing) : Row :=
  ⟨l.mls_id, l.beds, l.baths, l.price, l.latitude, l.longitude,
   l.property_type, l.status, l.square_feet, l.crawledAt,
   l.raw_data_s3_key, now, now⟩

/-- One iteration of the per-listing loop of `_save_to_database`:
`select(Listing).where(mls_id == …)`, then update in place if a row
exists, else insert. -/
def upsertListing (now : Nat) (db : List Row) (l : NormalizedListing) :
    List Row :=
  if db.any fun r => decide (r.mls_id = l.mls_id) then
    db.map (applyUpd now l)
  else db ++ [newRow now l]

/-- One batch of `_save_to_database` as a transaction.  `outcome = none`:
every listing of the batch is upserted and the batch commits, the
`saved_count` contribution is the batch length.  `outcome = some k`: a
database exception is raised after `k` listings of the batch were
processed (possibly at the final `commit`, `k = batch.length`); the
`rollback` leaves the store unchanged, but `saved_count` was already
incremented `k` times. -/
def saveBatch (now : Nat) (db : List Row) (batch : List NormalizedListing)
    (outcome : Option Nat) : List Row × Nat :=
  match outcome with
  | none => (batch.foldl (upsertListing now) db, batch.length)
  | some k => (db, min k batch.length)

/-- The batch loop of `_save_to_database`: a failed batch is logged and
the loop proceeds with the next batch. -/
def saveBatches (now : Nat) (fail : List NormalizedListing → Option Nat) :
    List Row → List (List NormalizedListing) → List Row × Nat
  | db, [] => (db, 0)
  | db, b :: bs =>
    let step := saveBatch now db b (fail b)
    let rest := saveBatches now fail step.1 bs
    (rest.1, step.2 + rest.2)

/-- `MLSCrawler._save_to_database`: slice into batches of
`settings.batch_size`, run each as one transaction, return the final
store and the returned `saved_count`. -/
def saveToDatabase (now : Nat) (batchSize : Nat)
    (fail : List NormalizedListing → Option Nat)
    (db : List Row) (ls : List NormalizedListing) : List Row × Nat :=
  saveBatches now fail db (toBatches batchSize ls)

/-- One per-item result of a bulk response, i.e. the `item['index']`
object: `status` is `index_result.get('status')` (`none` when the field is
missing).  Every operation this client submits is an index op, so every
response item carries the `index` key. -/
structure BulkItem where
  status : Option Int
  deriving DecidableEq, Repr

/-- `_process_bulk_response` counts an item as failed unless its status is
`200` or `201` (a missing status is not in that list either). -/
def bulkItemFails (it : BulkItem) : Bool :=
  decide ¬(it.status = some 200 ∨ it.status = some 201)

/-- `OpenSearchClient._process_bulk_response`: per-item accounting into
`(indexed, failed)`.  (The bounded `errors` sample list is not modelled;
it does not affect the counters.) -/
def processBulkResponse : List BulkItem → Nat × Nat
  | [] => (0, 0)
  | it :: rest =>
    let s := processBulkResponse rest
    if bulkItemFails it then (s.1, s.2 + 1) else (s.1 + 1, s.2)

/-- Outcome of one `async_client.bulk` call: either the whole call raises
(transport failure) or a response with per-item results comes back. -/
inductive BulkOutcome where
  | transportFail (msg : String)
  | response (items : List BulkItem)

/-- `OpenSearchClient.bulk_index_listings`: an empty batch returns
`(0, 0)` without calling the cluster; a raised bulk call is caught and
returns `indexed = 0, failed = len(listings)`; otherwise the response is
handed to `_process_bulk_response`. -/
def bulkIndexListings (ls : List NormalizedListing) (o : BulkOutcome) :
    Nat × Nat :=
  if ls.isEmpty then (0, 0)
  else
    match o with
    | .transportFail _ => (0, ls.length)
    | .response items => processBulkResponse items

/-- The batch loop of `MLSCrawler._index_in_opensearch`: sums the
`indexed` counts; a batch whose bulk call failed contributes `0` and the
loop continues. -/
def indexBatches (bulk : List NormalizedListing → BulkOutcome) :
    List (List NormalizedListing) → Nat
  | [] => 0
  | b :: bs => (bulkIndexListings b (bulk b)).1 + indexBatches bulk bs

/-- `MLSCrawler._index_in_opensearch` (its internal index-creation and
refresh calls catch their own errors and do not affect the count). -/
def indexInOpenSearch (bulk : List NormalizedListing → BulkOutcome)
    (batchSize : Nat) (ls : List NormalizedListing) : Nat :=
  indexBatches bulk (toBatches batchSize ls)

/-- `CrawlJobStatus` (`schemas.py`), the in-memory job record mirrored
into the `crawl_jobs` row by `_update_job_record`.  `error_details` is the
structured detail dict, modelled by its error-message payload. -/
structure CrawlJobStatus where
  status : String
  total_fetched : Nat
  total_processed : Nat
  total_saved : Nat
  total_indexed : Nat
  total_errors : Nat
  error_message : Option String
  error_details : Option String
  deriving DecidableEq, Repr

/-- The environment of one `run_crawl_job` call: the outcome of every
effectful operation the orchestrator performs.  `initServices`,
`createJob`, `fetch` and `archive` may raise (`.error`, the message of the
Python exception); `_normalize_listings`, `_save_to_database` and
`_index_in_opensearch` catch all their internal exceptions and return
normally, so their environments are the per-batch oracles `batchFail` and
`bulk` (a function of the submitted batch).  `db0` is the listings table
at run start and `now` the abstract clock. -/
structure CrawlEnv where
  initServices : Except String Unit
  createJob : Except String Unit
  fetch : Except String (List RawRecord)
  archive : Except String String
  batchSize : Nat
  batchFail : List NormalizedListing → Option Nat
  bulk : List NormalizedListing → BulkOutcome
  db0 : List Row
  now : Nat

/-- The externally visible operations of one run, in execution order; the
final `CrawlJob` write carries the job status it records. -/
inductive Action where
  | initStage
  | createJobStage
  | fetchStage
  | archiveStage
  | normalizeStage
  | saveStage
  | indexStage
  | updateJobStage (final : CrawlJobStatus)
  deriving DecidableEq, Repr

/-- The `CrawlJobStatus` constructed at the top of `run_crawl_job`. -/
def initialJob : CrawlJobStatus := ⟨"running", 0, 0, 0, 0, 0, none, none⟩

/-- The `except Exception` branch of `run_crawl_job`: status `failed`,
error message and structured detail recorded, counters left as
accumulated. -/
def failJob (js : CrawlJobStatus) (m : String) : CrawlJobStatus :=
  { js with status := "failed", error_message := some m,
            error_details := some m }

/-- The `try`/`except` body of `MLSCrawler.run_crawl_job` (everything
before the `finally`), returning the final in-memory job status and the
trace of operations performed.  Mirrors the source: services and the job
record first; an empty fetch result returns `completed` early with all
remaining counters `0`; each stage's counter is set right after the stage;
any raising stage jumps to the `except` branch. -/
def runCrawlJobCore (env : CrawlEnv) : CrawlJobStatus × List Action :=
  match env.initServices with
  | .error m => (failJob initialJob m, [.initStage])
  | .ok _ =>
    match env.createJob with
    | .error m => (failJob initialJob m, [.initStage, .createJobStage])
    | .ok _ =>
      match env.fetch with
      | .error m =>
        (failJob initialJob m, [.initStage, .createJobStage, .fetchStage])
      | .ok raws =>
        let js1 := { initialJob with total_fetched := raws.length }
        if raws.isEmpty then
          ({ js1 with status := "completed" },
           [.initStage, .createJobStage, .fetchStage])
        else
          match env.archive with
          | .error m =>
            (failJob js1 m,
             [.initStage, .createJobStage, .fetchStage, .archiveStage])
          | .ok s3Key =>
            let normalized := (normalizeListings raws s3Key env.now).1
            let js2 := { js1 with total_processed := normalized.length }
            let saved :=
              (saveToDatabase env.now env.batchSize env.batchFail
                env.db0 normalized).2
            let js3 := { js2 with total_saved := saved }
            let indexed :=
              indexInOpenSearch env.bulk env.batchSize normalized
            ({ js3 with total_indexed := indexed, status := "completed" },
             [.initStage, .createJobStage, .fetchStage, .archiveStage,
              .normalizeStage, .saveStage, .indexStage])

/-- `MLSCrawler.run_crawl_job`: the `finally` block runs
`_update_job_record` with the final status as the last action on every
path, including the empty-fetch early `return` and the `except` branch.
(`_update_job_record` catches its own database errors, so the call never
raises; acquiring the session for it is modelled as succeeding.) -/
def runCrawlJob (env : CrawlEnv) : CrawlJobStatus × List Action :=
  let r := runCrawlJobCore env
  (r.1, r.2 ++ [.updateJobStage r.1])

/-- Embedding of the `trigger_crawl` handler (`main.py`): its body awaits
`mls_crawler.run_crawl_job()` unconditionally — it consults neither the
scheduler nor the `crawl_jobs` table, so the decision to start a run does
not depend on whether another run is currently active.  The argument is
that (unused) piece of state; the result is whether a new run is
started. -/
def triggerCrawlStartsRun (_activeRunInProgress : Bool) : Bool :=
  true

/-! Derived notions used by the theorem statements. -/

/-- The run recorded by `runCrawlJob env` failed with message `m` and the
structured detail carrying `m`. -/
def runFailedWith (env : CrawlEnv) (m : String) : Prop :=
  (runCrawlJob env).1.status = "failed" ∧
  (runCrawlJob env).1.error_message = some m ∧
  (runCrawlJob env).1.error_details = some m

/-- The coordinate part of the spec's NormalizedListing invariant that the
code does enforce: any coordinate that is present is inside the valid
geographic range. -/
def latLonBounded (l : NormalizedListing) : Prop :=
  (∀ x, l.latitude = some x → -90 ≤ x ∧ x ≤ 90) ∧
  (∀ y, l.longitude = some y → -180 ≤ y ∧ y ≤ 180)

/-- The `mls_id` column of every row of the store, in row order. -/
def dbKeys (db : List Row) : List String :=
  db.map Row.mls_id

/-- "At most one row per `mls_id`": the key column is duplicate-free (the
`uq_listings_mls_id` unique constraint of `database.py`). -/
def NodupKeys (db : List Row) : Prop :=
  (dbKeys db).Nodup

/-- Forget the system-maintained timestamps of a row (the claim compares
stores up to refreshed timestamps). -/
def eraseTimes (r : Row) : Row :=
  { r with created_at := 0, updated_at := 0 }

/-- Row `r` carries exactly the updatable column values of listing `l`:
writing `l`-s values over the timestamp-erased row changes nothing. -/
def rowMatches (l : NormalizedListing) (r : Row) : Prop :=
  setFields 0 l (eraseTimes r) = eraseTimes r

/-- The per-listing loop of `_save_to_database` over a whole listing
sequence, ignoring batch boundaries (equal to the batched stage when no
batch fails). -/
def saveAll (now : Nat) (db : List Row) (ls : List NormalizedListing) :
    List Row :=
  ls.foldl (upsertListing now) db

/-- All updates of a listing sequence applied to a single row, in
sequence order. -/
def updAll (now : Nat) (ls : List NormalizedListing) (r : Row) : Row :=
  ls.foldl (fun r l => applyUpd now l r) r

/-- The last listing of `ls` carrying key `k` (the one whose update wins
when several listings share an `mls_id`). -/
def lastUpd (ls : List NormalizedListing) (k : String) :
    Option NormalizedListing :=
  (ls.filter fun l => decide (l.mls_id = k)).getLast?

/-- The batches whose transaction committed. -/
def committedBatches (fail : List NormalizedListing → Option Nat)
    (bs : List (List NormalizedListing)) : List (List NormalizedListing) :=
  bs.filter fun b => (fail b).isNone

/-! Concrete inputs used by counterexamples and witnesses. -/

/-- A raw record that passes `MLSRawListing` validation. -/
def goodRaw : RawRecord :=
  ⟨some "L1", some 3, some 2, some 50000000, some 37, some (-122),
   some "house", some "active", some 1500, none, some 1990⟩

/-- A raw record whose validation raises: the required `id` field is
missing. -/
def badRaw : RawRecord :=
  ⟨none, none, none, none, none, none, none, none, none, none, none⟩

/-- A raw record that validates with a latitude but no longitude. -/
def rawOneCoord : RawRecord :=
  ⟨some "L2", none, none, none, some 10, none, none, none, none, none,
   none⟩

/-- The normalized listing the pipeline produces from `rawOneCoord` with
archive key `"k"` at clock `0`. -/
def nlOneCoord : NormalizedListing :=
  ⟨"L2", none, none, none, some 10, none, none, none, none, none, none,
   0, some "k"⟩

/-- A run environment in which every external operation succeeds, the
fetch returns one valid and one malformed record (50% malformed, above
the 10% tolerance), every database batch commits and every bulk item
reports status 201. -/
def cexEnv : CrawlEnv :=
  ⟨.ok (), .ok (), .ok [goodRaw, badRaw], .ok "raw/2025/key", 100,
   fun _ => none, fun b => .response (b.map fun _ => ⟨some 201⟩), [], 7⟩

/-- A run environment whose fetch returns no records. -/
def emptyFetchEnv : CrawlEnv :=
  ⟨.ok (), .ok (), .ok [], .ok "raw/2025/key", 100, fun _ => none,
   fun _ => .response [], [], 0⟩

/-- A run environment whose S3 archive write fails after a successful
fetch of one record. -/
def archiveFailEnv : CrawlEnv :=
  ⟨.ok (), .ok (), .ok [rawOneCoord], .error "s3 down", 100,
   fun _ => none, fun _ => .response [], [], 3⟩

/-- A normalized listing used by the persistence counterexample. -/
def nlSimple : NormalizedListing :=
  ⟨"L9", none, none, some 100, none, none, none, none, none, none, none,
   5, some "k9"⟩

/-! ## Helper lemmas -/

theorem toBatchesGo_flatten (n : Nat) :
    ∀ (fuel : Nat) (l : List α), l.length ≤ fuel →
      (toBatchesGo n fuel l).flatten = l := by
  intro fuel
  induction fuel with
  | zero =>
    intro l hl
    rw [List.length_eq_zero.mp (Nat.le_zero.mp hl)]
    rfl
  | succ fuel ih =>
    intro l hl
    match l with
    | [] => rfl
    | a :: l =>
      rw [toBatchesGo, List.flatten_cons, ih (l.drop (n - 1)) ?_]
      · simp
      · simp only [List.length_drop]
        simp only [List.length_cons] at hl
        omega

theorem toBatches_flatten (n : Nat) (l : List α) :
    (toBatches n l).flatten = l :=
  toBatchesGo_flatten n l.length l (Nat.le_refl _)

theorem toBatches_length_sum (n : Nat) (l : List α) :
    ((toBatches n l).map List.length).sum = l.length := by
  rw [← List.length_flatten, toBatches_flatten]

theorem processBulkResponse_spec (items : List BulkItem) :
    processBulkResponse items =
      (items.length - items.countP bulkItemFails,
       items.countP bulkItemFails) := by
  induction items with
  | nil => rfl
  | cons it rest ih =>
    have hle : rest.countP bulkItemFails ≤ rest.length :=
      List.countP_le_length _
    by_cases hf : bulkItemFails it = true
    · simp [processBulkResponse, ih, hf, List.countP_cons]
    · simp [processBulkResponse, ih, hf, List.countP_cons, Nat.succ_sub hle]

theorem processBulkResponse_fst_le (items : List BulkItem) :
    (processBulkResponse items).1 ≤ items.length := by
  rw [processBulkResponse_spec]
  exact Nat.sub_le _ _

/-! ## C4 — partial index-failure accounting -/

/-- C4: for a bulk response of `M` per-item results of which `K` report a
status outside `{200, 201}` (a missing status included), the stage returns
`indexed = M - K` and `failed = K`; and a batch whose bulk call raises is
accounted as `indexed = 0`, `failed = ` the batch's listing count, without
raising further. -/
theorem bulk_partial_failure_accounting :
    (∀ items : List BulkItem,
      processBulkResponse items =
        (items.length - items.countP bulkItemFails,
         items.countP bulkItemFails)) ∧
    (∀ (ls : List NormalizedListing) (m : String),
      bulkIndexListings ls (.transportFail m) = (0, ls.length)) := by
  refine ⟨processBulkResponse_spec, fun ls m => ?_⟩
  cases ls <;> rfl

/-! ## C7 — enum normalization is total and case-insensitive -/

theorem propertyTypeLookup_not_key (k : String)
    (h : isPropertyTypeKey k = false) :
    propertyTypeLookup k = PropertyType.OTHER := by
  simp only [isPropertyTypeKey, Bool.or_eq_false_iff,
    decide_eq_false_iff_not] at h
  obtain ⟨⟨⟨⟨⟨⟨⟨⟨⟨⟨⟨⟨⟨h1, h2⟩, h3⟩, h4⟩, h5⟩, h6⟩, h7⟩, h8⟩, h9⟩, h10⟩,
    h11⟩, h12⟩, h13⟩, h14⟩ := h
  simp only [propertyTypeLookup, if_neg h1, if_neg h2, if_neg h3,
    if_neg h4, if_neg h5, if_neg h6, if_neg h7, if_neg h8, if_neg h9,
    if_neg h10, if_neg h11, if_neg h12, if_neg h13, if_neg h14]

theorem statusLookup_not_key (k : String) (h : isStatusKey k = false) :
    statusLookup k = ListingStatus.ACTIVE := by
  simp only [isStatusKey, Bool.or_eq_false_iff,
    decide_eq_false_iff_not] at h
  obtain ⟨⟨⟨⟨⟨⟨⟨⟨h1, h2⟩, h3⟩, h4⟩, h5⟩, h6⟩, h7⟩, h8⟩, h9⟩ := h
  simp only [statusLookup, if_neg h1, if_neg h2, if_neg h3, if_neg h4,
    if_neg h5, if_neg h6, if_neg h7, if_neg h8, if_neg h9]

/-- C7: a non-empty property-type string whose lowercased, stripped form
is not a synonym key normalizes to `OTHER`; a non-empty status string not
in the status dictionary normalizes to `ACTIVE`; and two non-empty raw
strings with the same lowercased, stripped form (in particular, strings
differing only in letter case or surrounding whitespace) normalize to the
same enum values.  Normalization never errors: both functions are total. -/
theorem enum_normalization_total (s s1 s2 : String) :
    (s ≠ "" → isPropertyTypeKey (lowerStrip s) = false →
      normalizePropertyType (some s) = some PropertyType.OTHER) ∧
    (s ≠ "" → isStatusKey (lowerStrip s) = false →
      normalizeStatus (some s) = some ListingStatus.ACTIVE) ∧
    (s1 ≠ "" → s2 ≠ "" → lowerStrip s1 = lowerStrip s2 →
      normalizePropertyType (some s1) = normalizePropertyType (some s2) ∧
      normalizeStatus (some s1) = normalizeStatus (some s2)) := by
  refine ⟨fun h hk => ?_, fun h hk => ?_, fun h1 h2 he => ?_⟩
  · simp [normalizePropertyType, h, propertyTypeLookup_not_key _ hk]
  · simp [normalizeStatus, h, statusLookup_not_key _ hk]
  · constructor
    · simp [normalizePropertyType, h1, h2, he]
    · simp [normalizeStatus, h1, h2, he]

/-- Witness for C7 at concrete inputs: `"Warehouse"` is no property-type
synonym and maps to `OTHER`; `"Archived"` is no status synonym and maps to
`ACTIVE`; `"  CONDO  "` and `"condo"` agree after case folding and
stripping. -/
theorem enum_normalization_total_witness :
    normalizePropertyType (some "Warehouse") = some PropertyType.OTHER ∧
    normalizeStatus (some "Archived") = some ListingStatus.ACTIVE ∧
    normalizePropertyType (some "  CONDO  ") =
      normalizePropertyType (some "condo") :=
  ⟨(enum_normalization_total "Warehouse" "" "").1 (by decide) (by decide),
   (enum_normalization_total "Archived" "" "").2.1 (by decide) (by decide),
   ((enum_normalization_total "" "  CONDO  " "condo").2.2 (by decide)
     (by decide) (by decide)).1⟩

/-! ## C9 — single-flight / mutual exclusion for manual triggers -/

/-- Counterexample to C9: the `trigger_crawl` handler contains no
mutual-exclusion check — with a run already active (`true`), it still
starts a new run, so a manual trigger is neither rejected nor queued and
executes concurrently with the active run. -/
theorem manual_trigger_ignores_active_run :
    triggerCrawlStartsRun true = true := rfl

/-- C9 as amended: a manually triggered run is started unconditionally —
the handler's decision is independent of whether a run is in progress.
(Scheduled runs among themselves are serialized, because the scheduler
loop awaits each run's completion before computing the next fire time,
but no check protects manual triggers.) -/
theorem trigger_crawl_unconditional :
    ∀ activeRun : Bool, triggerCrawlStartsRun activeRun = true :=
  fun _ => rfl

/-! ## C8 — coordinate invariant of NormalizedListing -/

theorem parseRaw_coord_bounds (r : RawRecord) (m : MLSRawListing)
    (h : parseRaw r = some m) :
    (∀ x, m.lat = some x → -90 ≤ x ∧ x ≤ 90) ∧
    (∀ y, m.lon = some y → -180 ≤ y ∧ y ≤ 180) := by
  cases hid : r.id with
  | none => simp [parseRaw, hid] at h
  | some i =>
    simp only [parseRaw, hid] at h
    by_cases hc : i.length ≥ 1 ∧ rawFieldsOk r = true
    · rw [if_pos hc] at h
      obtain ⟨hlen, hok⟩ := hc
      injection h with hm
      subst hm
      simp only [rawFieldsOk, Bool.and_eq_true] at hok
      obtain ⟨⟨⟨⟨⟨⟨⟨b1, b2⟩, b3⟩, b4⟩, b5⟩, b6⟩, b7⟩, b8⟩ := hok
      constructor
      · intro x hx
        simp only at hx
        rw [hx] at b4
        exact of_decide_eq_true b4
      · intro y hy
        simp only at hy
        rw [hy] at b5
        exact of_decide_eq_true b5
    · rw [if_neg hc] at h
      exact absurd h (by simp)

theorem fromMlsListing_bounded (m : MLSRawListing) (s3Key : Option String)
    (now : Nat)
    (hm : (∀ x, m.lat = some x → -90 ≤ x ∧ x ≤ 90) ∧
          (∀ y, m.lon = some y → -180 ≤ y ∧ y ≤ 180)) :
    latLonBounded (fromMlsListing m s3Key now) :=
  ⟨fun x hx => hm.1 x hx, fun y hy => hm.2 y hy⟩

theorem normalizeGo_bounded (total : Nat) (s3Key : String) (now : Nat) :
    ∀ (rest : List RawRecord) (acc : List NormalizedListing) (errors : Nat),
      (∀ a ∈ acc, latLonBounded a) →
      ∀ l ∈ (normalizeGo total s3Key now rest acc errors).1,
        latLonBounded l := by
  intro rest
  induction rest with
  | nil =>
    intro acc errors hacc l hl
    simp only [normalizeGo, List.mem_reverse] at hl
    exact hacc l hl
  | cons r rest ih =>
    intro acc errors hacc l hl
    rw [normalizeGo] at hl
    cases hp : parseRaw r with
    | some m =>
      rw [hp] at hl
      refine ih _ _ ?_ l hl
      intro a ha
      rcases List.mem_cons.mp ha with ha1 | ha2
      · rw [ha1]
        exact fromMlsListing_bounded m (some s3Key) now
          (parseRaw_coord_bounds r m hp)
      · exact hacc a ha2
    | none =>
      rw [hp] at hl
      by_cases hth : 10 * (errors + 1) > total
      · rw [if_pos hth] at hl
        simp only [List.mem_reverse] at hl
        exact hacc l hl
      · rw [if_neg hth] at hl
        exact ih _ _ hacc l hl

/-- Counterexample to C8: the pipeline normalizes a raw record having a
latitude but no longitude into a listing with exactly one of the two
coordinates present — the claimed "both or neither" invariant fails. -/
theorem coordinate_invariant_counterexample :
    (normalizeListings [rawOneCoord] "k" 0).1 = [nlOneCoord] ∧
    nlOneCoord.latitude = some 10 ∧ nlOneCoord.longitude = none := by
  decide

/-- C8 as amended: every coordinate a pipeline-produced NormalizedListing
carries is within the valid geographic bounds (latitude in `[-90, 90]`,
longitude in `[-180, 180]`) — but latitude and longitude are validated
independently, so a listing may carry exactly one of the two. -/
theorem coords_present_in_bounds (raws : List RawRecord) (s3Key : String)
    (now : Nat) (l : NormalizedListing)
    (h : l ∈ (normalizeListings raws s3Key now).1) : latLonBounded l :=
  normalizeGo_bounded raws.length s3Key now raws [] 0
    (by intro a ha; exact absurd ha (List.not_mem_nil a)) l h

/-- Witness for C8's amended theorem at a concrete pipeline output. -/
theorem coords_present_in_bounds_witness : latLonBounded nlOneCoord :=
  coords_present_in_bounds [rawOneCoord] "k" 0 nlOneCoord (by decide)

/-! ## C1 — the 10% normalization-error threshold -/

/-- Counterexample to C1: a batch of 2 records of which 1 (50% > 10%) is
malformed, with every other operation succeeding.  The normalizer breaks
out of its loop but does not raise, so the run ends `completed` (not
`failed`) and the valid listing normalized before the stop is persisted:
`total_saved = 1 ≠ 0`. -/
theorem threshold_abort_counterexample :
    10 * ([goodRaw, badRaw].countP fun r => (parseRaw r).isNone) >
      ([goodRaw, badRaw] : List RawRecord).length ∧
    cexEnv.fetch = Except.ok [goodRaw, badRaw] ∧
    (runCrawlJob cexEnv).1.status = "completed" ∧
    (runCrawlJob cexEnv).1.total_saved = 1 :=
  ⟨by decide, rfl, by decide, by decide⟩

/-- C1 as amended: when more than 10% of the fetched batch is malformed
the normalization stage stops processing further records early, but it
does not abort the run — whenever the fetch and archive stages succeed
the run still finishes with status `completed` (and the listings
normalized before the stop are persisted, so `total_saved` need not be
`0`). -/
theorem threshold_run_completes (env : CrawlEnv) (raws : List RawRecord)
    (k : String)
    (h1 : env.initServices = .ok ()) (h2 : env.createJob = .ok ())
    (h3 : env.fetch = .ok raws) (h4 : env.archive = .ok k)
    (_h5 : 10 * (raws.countP fun r => (parseRaw r).isNone) > raws.length) :
    (runCrawlJob env).1.status = "completed" := by
  by_cases he : raws.isEmpty
  · simp [runCrawlJob, runCrawlJobCore, h1, h2, h3, h4, he]
  · simp [runCrawlJob, runCrawlJobCore, h1, h2, h3, h4, he]

/-- Witness for C1's amended theorem at the counterexample environment. -/
theorem threshold_run_completes_witness :
    (runCrawlJob cexEnv).1.status = "completed" :=
  threshold_run_completes cexEnv [goodRaw, badRaw] "raw/2025/key"
    rfl rfl rfl rfl (by decide)

/-! ## C10 — empty fetch short-circuits the run -/

/-- C10: when the fetch stage returns no records (after init and job
creation succeeded), the run returns `completed` with all counters `0`,
performs no archive, normalize, persist or index operation, and still
writes the job record as its last action. -/
theorem empty_fetch_short_circuit (env : CrawlEnv)
    (h1 : env.initServices = .ok ()) (h2 : env.createJob = .ok ())
    (h3 : env.fetch = .ok ([] : List RawRecord)) :
    (runCrawlJob env).1.status = "completed" ∧
    (runCrawlJob env).1.total_fetched = 0 ∧
    (runCrawlJob env).1.total_processed = 0 ∧
    (runCrawlJob env).1.total_saved = 0 ∧
    (runCrawlJob env).1.total_indexed = 0 ∧
    (runCrawlJob env).2 =
      [.initStage, .createJobStage, .fetchStage,
       .updateJobStage (runCrawlJob env).1] := by
  simp [runCrawlJob, runCrawlJobCore, h1, h2, h3, initialJob]

/-- Witness for C10 at a concrete environment with an empty fetch. -/
theorem empty_fetch_short_circuit_witness :
    (runCrawlJob emptyFetchEnv).1.status = "completed" ∧
    (runCrawlJob emptyFetchEnv).1.total_fetched = 0 ∧
    (runCrawlJob emptyFetchEnv).1.total_processed = 0 ∧
    (runCrawlJob emptyFetchEnv).1.total_saved = 0 ∧
    (runCrawlJob emptyFetchEnv).1.total_indexed = 0 ∧
    (runCrawlJob emptyFetchEnv).2 =
      [.initStage, .createJobStage, .fetchStage,
       .updateJobStage (runCrawlJob emptyFetchEnv).1] :=
  empty_fetch_short_circuit emptyFetchEnv rfl rfl rfl

/-! ## C3 — the run always ends in a terminal, recorded state -/

/-- C3: for every environment, `run_crawl_job` returns (it propagates no
exception in the model — each stage's failure is caught), its final status
is terminal (`completed` or `failed`), and its trace ends with the job-
record update carrying exactly the returned status.  When a stage raises,
the status is `failed` with the error message and structured detail
recorded, and counters accumulated before the failure point (here
`total_fetched` when the archive stage fails) are still written. -/
theorem run_crawl_job_terminal_update (env : CrawlEnv) :
    ((runCrawlJob env).1.status = "completed" ∨
      (runCrawlJob env).1.status = "failed") ∧
    (runCrawlJob env).2.getLast? =
      some (.updateJobStage (runCrawlJob env).1) ∧
    (∀ m, env.initServices = .error m → runFailedWith env m) ∧
    (∀ m, env.initServices = .ok () → env.createJob = .error m →
      runFailedWith env m) ∧
    (∀ m, env.initServices = .ok () → env.createJob = .ok () →
      env.fetch = .error m → runFailedWith env m) ∧
    (∀ m raws, env.initServices = .ok () → env.createJob = .ok () →
      env.fetch = .ok raws → raws ≠ [] → env.archive = .error m →
      runFailedWith env m ∧
      (runCrawlJob env).1.total_fetched = raws.length) := by
  refine ⟨?_, ?_, ?_, ?_, ?_, ?_⟩
  · rcases hi : env.initServices with m | u
    · right; simp [runCrawlJob, runCrawlJobCore, hi, failJob]
    · rcases hc : env.createJob with m | u2
      · right; simp [runCrawlJob, runCrawlJobCore, hi, hc, failJob]
      · rcases hf : env.fetch with m | raws
        · right; simp [runCrawlJob, runCrawlJobCore, hi, hc, hf, failJob]
        · by_cases he : raws.isEmpty = true
          · left; simp [runCrawlJob, runCrawlJobCore, hi, hc, hf, he]
          · rcases ha : env.archive with m | k
            · right
              simp [runCrawlJob, runCrawlJobCore, hi, hc, hf, he, ha,
                failJob]
            · left
              simp [runCrawlJob, runCrawlJobCore, hi, hc, hf, he, ha]
  · simp [runCrawlJob, List.getLast?_concat]
  · intro m hi
    simp [runFailedWith, runCrawlJob, runCrawlJobCore, hi, failJob]
  · intro m hi hc
    simp [runFailedWith, runCrawlJob, runCrawlJobCore, hi, hc, failJob]
  · intro m hi hc hf
    simp [runFailedWith, runCrawlJob, runCrawlJobCore, hi, hc, hf, failJob]
  · intro m raws hi hc hf hne ha
    cases raws with
    | nil => exact absurd rfl hne
    | cons r rs =>
      simp [runFailedWith, runCrawlJob, runCrawlJobCore, hi, hc, hf, ha,
        failJob, initialJob]

/-- Witness for C3 at a concrete environment whose archive stage fails:
the run is `failed` with the message recorded and the fetched count
preserved. -/
theorem run_crawl_job_terminal_update_witness :
    runFailedWith archiveFailEnv "s3 down" ∧
    (runCrawlJob archiveFailEnv).1.total_fetched =
      ([rawOneCoord] : List RawRecord).length :=
  (run_crawl_job_terminal_update archiveFailEnv).2.2.2.2.2 "s3 down"
    [rawOneCoord] rfl rfl rfl (by decide) rfl

/-! ## C2 — counter monotonicity -/

theorem normalizeGo_length_le (total : Nat) (s3Key : String) (now : Nat) :
    ∀ (rest : List RawRecord) (acc : List NormalizedListing) (errors : Nat),
      ((normalizeGo total s3Key now rest acc errors).1).length ≤
        rest.length + acc.length := by
  intro rest
  induction rest with
  | nil => intro acc errors; simp [normalizeGo]
  | cons r rest ih =>
    intro acc errors
    rw [normalizeGo]
    cases hp : parseRaw r with
    | some m =>
      have h := ih (fromMlsListing m (some s3Key) now :: acc) errors
      simp only [List.length_cons] at h ⊢
      omega
    | none =>
      by_cases hth : 10 * (errors + 1) > total
      · rw [if_pos hth]
        simp only [List.length_reverse, List.length_cons]
        omega
      · rw [if_neg hth]
        have h := ih acc (errors + 1)
        simp only [List.length_cons]
        omega

theorem normalizeListings_length_le (raws : List RawRecord)
    (s3Key : String) (now : Nat) :
    ((normalizeListings raws s3Key now).1).length ≤ raws.length := by
  have h := normalizeGo_length_le raws.length s3Key now raws [] 0
  simpa [normalizeListings] using h

theorem saveBatch_count_le (now : Nat) (db : List Row)
    (batch : List NormalizedListing) (outcome : Option Nat) :
    (saveBatch now db batch outcome).2 ≤ batch.length := by
  cases outcome with
  | none => exact Nat.le_refl _
  | some k => exact Nat.min_le_right _ _

theorem saveBatches_count_le (now : Nat)
    (fail : List NormalizedListing → Option Nat) :
    ∀ (bs : List (List NormalizedListing)) (db : List Row),
      (saveBatches now fail db bs).2 ≤ (bs.map List.length).sum := by
  intro bs
  induction bs with
  | nil => intro db; simp [saveBatches]
  | cons b bs ih =>
    intro db
    have h1 := saveBatch_count_le now db b (fail b)
    have h2 := ih (saveBatch now db b (fail b)).1
    simp only [saveBatches, List.map_cons, List.sum_cons]
    omega

theorem saveToDatabase_count_le (now batchSize : Nat)
    (fail : List NormalizedListing → Option Nat) (db : List Row)
    (ls : List NormalizedListing) :
    (saveToDatabase now batchSize fail db ls).2 ≤ ls.length := by
  have h := saveBatches_count_le now fail (toBatches batchSize ls) db
  rw [toBatches_length_sum] at h
  exact h

theorem bulkIndexListings_fst_le (ls : List NormalizedListing)
    (o : BulkOutcome)
    (hwf : ∀ items, o = .response items → items.length = ls.length) :
    (bulkIndexListings ls o).1 ≤ ls.length := by
  by_cases he : ls.isEmpty = true
  · simp [bulkIndexListings, he]
  · cases o with
    | transportFail m => simp [bulkIndexListings, he]
    | response items =>
      have hl := hwf items rfl
      simp only [bulkIndexListings, he, if_false, Bool.false_eq_true]
      rw [← hl]
      exact processBulkResponse_fst_le items

theorem indexBatches_le
    (bulk : List NormalizedListing → BulkOutcome)
    (hwf : ∀ b items, bulk b = .response items → items.length = b.length) :
    ∀ bs : List (List NormalizedListing),
      indexBatches bulk bs ≤ (bs.map List.length).sum := by
  intro bs
  induction bs with
  | nil => simp [indexBatches]
  | cons b bs ih =>
    have h1 : (bulkIndexListings b (bulk b)).1 ≤ b.length :=
      bulkIndexListings_fst_le b (bulk b) (fun items h => hwf b items h)
    simp only [indexBatches, List.map_cons, List.sum_cons]
    omega

theorem indexInOpenSearch_le
    (bulk : List NormalizedListing → BulkOutcome) (batchSize : Nat)
    (ls : List NormalizedListing)
    (hwf : ∀ b items, bulk b = .response items → items.length = b.length) :
    indexInOpenSearch bulk batchSize ls ≤ ls.length := by
  have h := indexBatches_le bulk hwf (toBatches batchSize ls)
  rw [toBatches_length_sum] at h
  exact h

/-- C2: for every run — on every success or failure path — the final
counters satisfy `total_fetched ≥ total_processed ≥ total_saved` and
`total_indexed ≤ total_processed`.  The only assumption is the bulk-API
contract that a bulk response carries exactly one per-item result per
submitted document. -/
theorem counter_monotonicity (env : CrawlEnv)
    (hwf : ∀ b items, env.bulk b = .response items →
      items.length = b.length) :
    (runCrawlJob env).1.total_processed ≤
      (runCrawlJob env).1.total_fetched ∧
    (runCrawlJob env).1.total_saved ≤
      (runCrawlJob env).1.total_processed ∧
    (runCrawlJob env).1.total_indexed ≤
      (runCrawlJob env).1.total_processed := by
  rcases hi : env.initServices with m | u
  · simp [runCrawlJob, runCrawlJobCore, hi, failJob, initialJob]
  · rcases hc : env.createJob with m | u2
    · simp [runCrawlJob, runCrawlJobCore, hi, hc, failJob, initialJob]
    · rcases hf : env.fetch with m | raws
      · simp [runCrawlJob, runCrawlJobCore, hi, hc, hf, failJob,
          initialJob]
      · by_cases he : raws.isEmpty = true
        · simp [runCrawlJob, runCrawlJobCore, hi, hc, hf, he, initialJob]
        · rcases ha : env.archive with m | k
          · simp [runCrawlJob, runCrawlJobCore, hi, hc, hf, he, ha,
              failJob, initialJob]
          · simp only [runCrawlJob, runCrawlJobCore, hi, hc, hf, he, ha,
              Bool.false_eq_true, if_false, initialJob]
            refine ⟨normalizeListings_length_le raws k env.now, ?_, ?_⟩
            · exact saveToDatabase_count_le env.now env.batchSize
                env.batchFail env.db0 ((normalizeListings raws k env.now).1)
            · exact indexInOpenSearch_le env.bulk env.batchSize
                ((normalizeListings raws k env.now).1) hwf

/-- Witness for C2 at a concrete environment (the counterexample
environment of C1, whose bulk oracle answers one 201 item per submitted
listing). -/
theorem counter_monotonicity_witness :
    (runCrawlJob cexEnv).1.total_processed ≤
      (runCrawlJob cexEnv).1.total_fetched ∧
    (runCrawlJob cexEnv).1.total_saved ≤
      (runCrawlJob cexEnv).1.total_processed ∧
    (runCrawlJob cexEnv).1.total_indexed ≤
      (runCrawlJob cexEnv).1.total_processed :=
  counter_monotonicity cexEnv
    (by
      intro b items h
      injection h with h2
      rw [← h2]
      simp)

/-! ## C6 — batch transactionality of the persistence stage -/

theorem committedBatches_cons_of_committed
    (fail : List NormalizedListing → Option Nat)
    (b : List NormalizedListing) (bs : List (List NormalizedListing))
    (h : fail b = none) :
    committedBatches fail (b :: bs) = b :: committedBatches fail bs := by
  simp [committedBatches, List.filter_cons, h]

theorem committedBatches_cons_of_failed
    (fail : List NormalizedListing → Option Nat)
    (b : List NormalizedListing) (bs : List (List NormalizedListing))
    (k : Nat) (h : fail b = some k) :
    committedBatches fail (b :: bs) = committedBatches fail bs := by
  simp [committedBatches, List.filter_cons, h]

theorem saveBatches_isolation (now : Nat)
    (fail : List NormalizedListing → Option Nat) :
    ∀ (bs : List (List NormalizedListing)) (db : List Row),
      (saveBatches now fail db bs).1 =
        ((committedBatches fail bs).flatten).foldl (upsertListing now) db ∧
      (saveBatches now fail db bs).2 =
        (bs.map fun b =>
          match fail b with
          | none => b.length
          | some k => min k b.length).sum := by
  intro bs
  induction bs with
  | nil => intro db; simp [saveBatches, committedBatches]
  | cons b bs ih =>
    intro db
    cases hfb : fail b with
    | none =>
      obtain ⟨ih1, ih2⟩ := ih (b.foldl (upsertListing now) db)
      constructor
      · show (saveBatches now fail
            (saveBatch now db b (fail b)).1 bs).1 = _
        rw [hfb]
        show (saveBatches now fail (b.foldl (upsertListing now) db) bs).1 = _
        rw [ih1, committedBatches_cons_of_committed fail b bs hfb,
          List.flatten_cons, List.foldl_append]
      · show (saveBatch now db b (fail b)).2 +
            (saveBatches now fail (saveBatch now db b (fail b)).1 bs).2 = _
        rw [hfb]
        show b.length +
            (saveBatches now fail (b.foldl (upsertListing now) db) bs).2 = _
        rw [ih2, List.map_cons, List.sum_cons, hfb]
    | some k =>
      obtain ⟨ih1, ih2⟩ := ih db
      constructor
      · show (saveBatches now fail (saveBatch now db b (fail b)).1 bs).1 = _
        rw [hfb]
        show (saveBatches now fail db bs).1 = _
        rw [ih1, committedBatches_cons_of_failed fail b bs k hfb]
      · show (saveBatch now db b (fail b)).2 +
            (saveBatches now fail (saveBatch now db b (fail b)).1 bs).2 = _
        rw [hfb]
        show min k b.length + (saveBatches now fail db bs).2 = _
        rw [ih2, List.map_cons, List.sum_cons, hfb]

/-- C6 as amended: each batch of the persistence stage is one
transaction — the final store is exactly the in-order application of the
committed batches' upserts, a failed batch leaves the store untouched,
and subsequent batches still proceed.  The returned count, however, is
the sum of the committed batch sizes plus, for each rolled-back batch,
the number of listings processed before its failure point — so it can
exceed the number of listings durably persisted. -/
theorem persistence_batch_isolation (now batchSize : Nat)
    (fail : List NormalizedListing → Option Nat) (db : List Row)
    (ls : List NormalizedListing) :
    (saveToDatabase now batchSize fail db ls).1 =
      ((committedBatches fail (toBatches batchSize ls)).flatten).foldl
        (upsertListing now) db ∧
    (saveToDatabase now batchSize fail db ls).2 =
      ((toBatches batchSize ls).map fun b =>
        match fail b with
        | none => b.length
        | some k => min k b.length).sum :=
  saveBatches_isolation now fail (toBatches batchSize ls) db

/-- Counterexample to C6's accounting clause: one batch of one listing
whose transaction fails after the listing was processed (`some 1`, e.g. a
failure at commit).  The batch rolls back — zero rows are durably
persisted — yet the stage returns a count of `1`. -/
theorem persist_count_overcount_counterexample :
    (saveToDatabase 5 100 (fun _ => some 1) [] [nlSimple]).2 = 1 ∧
    (saveToDatabase 5 100 (fun _ => some 1) [] [nlSimple]).1 = [] := by
  decide

/-! ## C5 — idempotent upsert -/

theorem setFields_mls_id (now : Nat) (l : NormalizedListing) (r : Row) :
    (setFields now l r).mls_id = r.mls_id := rfl

theorem applyUpd_mls_id (now : Nat) (l : NormalizedListing) (r : Row) :
    (applyUpd now l r).mls_id = r.mls_id := by
  unfold applyUpd
  split <;> rfl

theorem setFields_setFields (n1 n2 : Nat) (l1 l2 : NormalizedListing)
    (r : Row) :
    setFields n1 l1 (setFields n2 l2 r) = setFields n1 l1 r := rfl

theorem eraseTimes_setFields (now : Nat) (l : NormalizedListing) (r : Row) :
    eraseTimes (setFields now l r) = setFields 0 l (eraseTimes r) := rfl

theorem setFields_rowMatches (now : Nat) (l : NormalizedListing) (r : Row) :
    rowMatches l (setFields now l r) := by
  unfold rowMatches
  rw [eraseTimes_setFields, setFields_setFields]

theorem newRow_rowMatches (now : Nat) (l : NormalizedListing) :
    rowMatches l (newRow now l) := rfl

theorem mem_dbKeys (db : List Row) (k : String) :
    k ∈ dbKeys db ↔ ∃ r ∈ db, r.mls_id = k := by
  simp [dbKeys, List.mem_map]

theorem dbKeys_map_applyUpd (now : Nat) (l : NormalizedListing)
    (db : List Row) :
    dbKeys (db.map (applyUpd now l)) = dbKeys db := by
  simp only [dbKeys, List.map_map]
  exact List.map_congr_left fun r _ => applyUpd_mls_id now l r

theorem upsertListing_mem_branch (now : Nat) (db : List Row)
    (l : NormalizedListing) (h : l.mls_id ∈ dbKeys db) :
    upsertListing now db l = db.map (applyUpd now l) := by
  unfold upsertListing
  rw [if_pos ?_]
  rw [List.any_eq_true]
  obtain ⟨r, hr, hk⟩ := (mem_dbKeys db l.mls_id).mp h
  exact ⟨r, hr, by simp [hk]⟩

theorem upsertListing_new_branch (now : Nat) (db : List Row)
    (l : NormalizedListing) (h : l.mls_id ∉ dbKeys db) :
    upsertListing now db l = db ++ [newRow now l] := by
  unfold upsertListing
  rw [if_neg ?_]
  rw [List.any_eq_true]
  rintro ⟨r, hr, hk⟩
  simp only [decide_eq_true_eq] at hk
  exact h ((mem_dbKeys db l.mls_id).mpr ⟨r, hr, hk⟩)

theorem dbKeys_upsert_of_mem (now : Nat) (db : List Row)
    (l : NormalizedListing) (h : l.mls_id ∈ dbKeys db) :
    dbKeys (upsertListing now db l) = dbKeys db := by
  rw [upsertListing_mem_branch now db l h, dbKeys_map_applyUpd]

theorem dbKeys_upsert_of_not_mem (now : Nat) (db : List Row)
    (l : NormalizedListing) (h : l.mls_id ∉ dbKeys db) :
    dbKeys (upsertListing now db l) = dbKeys db ++ [l.mls_id] := by
  rw [upsertListing_new_branch now db l h]
  simp [dbKeys, newRow]

theorem dbKeys_upsert_superset (now : Nat) (db : List Row)
    (l : NormalizedListing) (k : String) (h : k ∈ dbKeys db) :
    k ∈ dbKeys (upsertListing now db l) := by
  by_cases hm : l.mls_id ∈ dbKeys db
  · rw [dbKeys_upsert_of_mem now db l hm]; exact h
  · rw [dbKeys_upsert_of_not_mem now db l hm]
    exact List.mem_append_left _ h

theorem mem_dbKeys_upsert_self (now : Nat) (db : List Row)
    (l : NormalizedListing) :
    l.mls_id ∈ dbKeys (upsertListing now db l) := by
  by_cases hm : l.mls_id ∈ dbKeys db
  · rw [dbKeys_upsert_of_mem now db l hm]; exact hm
  · rw [dbKeys_upsert_of_not_mem now db l hm]; simp

theorem nodupKeys_upsert (now : Nat) (db : List Row)
    (l : NormalizedListing) (h : NodupKeys db) :
    NodupKeys (upsertListing now db l) := by
  by_cases hm : l.mls_id ∈ dbKeys db
  · rw [NodupKeys, dbKeys_upsert_of_mem now db l hm]; exact h
  · rw [NodupKeys, dbKeys_upsert_of_not_mem now db l hm]
    have h2 : (dbKeys db).Nodup := h
    simp [List.nodup_append, h2, hm]

theorem dbKeys_saveAll_superset (now : Nat) :
    ∀ (ls : List NormalizedListing) (db : List Row) (k : String),
      k ∈ dbKeys db → k ∈ dbKeys (saveAll now db ls) := by
  intro ls
  induction ls with
  | nil => intro db k h; exact h
  | cons l ls ih =>
    intro db k h
    exact ih (upsertListing now db l) k
      (dbKeys_upsert_superset now db l k h)

theorem listing_key_mem_saveAll (now : Nat) :
    ∀ (ls : List NormalizedListing) (db : List Row)
      (l : NormalizedListing), l ∈ ls →
      l.mls_id ∈ dbKeys (saveAll now db ls) := by
  intro ls
  induction ls with
  | nil => intro db l h; exact absurd h (List.not_mem_nil l)
  | cons l0 ls ih =>
    intro db l h
    rcases List.mem_cons.mp h with h1 | h2
    · subst h1
      exact dbKeys_saveAll_superset now ls (upsertListing now db l) l.mls_id
        (mem_dbKeys_upsert_self now db l)
    · exact ih (upsertListing now db l0) l h2

theorem nodupKeys_saveAll (now : Nat) :
    ∀ (ls : List NormalizedListing) (db : List Row),
      NodupKeys db → NodupKeys (saveAll now db ls) := by
  intro ls
  induction ls with
  | nil => intro db h; exact h
  | cons l ls ih =>
    intro db h
    exact ih (upsertListing now db l) (nodupKeys_upsert now db l h)

theorem updAll_mls_id (now : Nat) :
    ∀ (ls : List NormalizedListing) (r : Row),
      (updAll now ls r).mls_id = r.mls_id := by
  intro ls
  induction ls with
  | nil => intro r; rfl
  | cons l ls ih =>
    intro r
    show (updAll now ls (applyUpd now l r)).mls_id = r.mls_id
    rw [ih (applyUpd now l r), applyUpd_mls_id]

theorem updAll_not_mem (now : Nat) :
    ∀ (ls : List NormalizedListing) (r : Row),
      r.mls_id ∉ ls.map NormalizedListing.mls_id → updAll now ls r = r := by
  intro ls
  induction ls with
  | nil => intro r _; rfl
  | cons l ls ih =>
    intro r h
    simp only [List.map_cons, List.mem_cons, not_or] at h
    show updAll now ls (applyUpd now l r) = r
    rw [applyUpd, if_neg h.1]
    exact ih r h.2

theorem saveAll_all_updates (now : Nat) :
    ∀ (ls : List NormalizedListing) (db : List Row),
      (∀ l ∈ ls, l.mls_id ∈ dbKeys db) →
      saveAll now db ls = db.map (updAll now ls) := by
  intro ls
  induction ls with
  | nil =>
    intro db _
    exact (List.map_id db).symm
  | cons l ls ih =>
    intro db h
    have hl : l.mls_id ∈ dbKeys db := h l (List.mem_cons_self l ls)
    show saveAll now (upsertListing now db l) ls = _
    rw [upsertListing_mem_branch now db l hl]
    rw [ih (db.map (applyUpd now l)) ?_]
    · rw [List.map_map]
      rfl
    · intro l2 hl2
      rw [dbKeys_map_applyUpd]
      exact h l2 (List.mem_cons_of_mem l hl2)

theorem getLast?_cons_of_ne_nil (a : α) (l : List α) (h : l ≠ []) :
    (a :: l).getLast? = l.getLast? := by
  cases l with
  | nil => exact absurd rfl h
  | cons b m => exact List.getLast?_cons_cons

theorem filter_key_ne_nil (ls : List NormalizedListing) (k : String)
    (h : k ∈ ls.map NormalizedListing.mls_id) :
    ls.filter (fun l => decide (l.mls_id = k)) ≠ [] := by
  rw [Ne, List.filter_eq_nil_iff]
  push_neg
  obtain ⟨l, hl, hk⟩ := List.mem_map.mp h
  exact ⟨l, hl, by simp [hk]⟩

theorem filter_key_nil (ls : List NormalizedListing) (k : String)
    (h : k ∉ ls.map NormalizedListing.mls_id) :
    ls.filter (fun l => decide (l.mls_id = k)) = [] := by
  rw [List.filter_eq_nil_iff]
  intro l hl
  simp only [decide_eq_true_eq]
  intro hk
  exact h (List.mem_map.mpr ⟨l, hl, hk⟩)

theorem lastUpd_cons_of_mem (l : NormalizedListing)
    (ls : List NormalizedListing) (k : String)
    (h : k ∈ ls.map NormalizedListing.mls_id) :
    lastUpd (l :: ls) k = lastUpd ls k := by
  unfold lastUpd
  rw [List.filter_cons]
  split
  · exact getLast?_cons_of_ne_nil l _ (filter_key_ne_nil ls k h)
  · rfl

theorem lastUpd_cons_self_of_not_mem (l : NormalizedListing)
    (ls : List NormalizedListing) (k : String) (hk : l.mls_id = k)
    (h : k ∉ ls.map NormalizedListing.mls_id) :
    lastUpd (l :: ls) k = some l := by
  unfold lastUpd
  rw [List.filter_cons_of_pos (by simp [hk]), filter_key_nil ls k h]
  rfl

theorem lastUpd_cons_of_ne (l : NormalizedListing)
    (ls : List NormalizedListing) (k : String) (hk : l.mls_id ≠ k) :
    lastUpd (l :: ls) k = lastUpd ls k := by
  unfold lastUpd
  rw [List.filter_cons_of_neg (by simp [hk])]

theorem updAll_mem (now : Nat) :
    ∀ (ls : List NormalizedListing) (r : Row),
      r.mls_id ∈ ls.map NormalizedListing.mls_id →
      ∃ l, lastUpd ls r.mls_id = some l ∧
        updAll now ls r = setFields now l r := by
  intro ls
  induction ls with
  | nil => intro r hr; simp at hr
  | cons l ls ih =>
    intro r hr
    by_cases hk : r.mls_id = l.mls_id
    · by_cases hmem : r.mls_id ∈ ls.map NormalizedListing.mls_id
      · have hmem2 : (setFields now l r).mls_id ∈
            ls.map NormalizedListing.mls_id := by
          rw [setFields_mls_id]; exact hmem
        obtain ⟨l2, hl1, hl2⟩ := ih (setFields now l r) hmem2
        rw [setFields_mls_id] at hl1
        refine ⟨l2, ?_, ?_⟩
        · rw [lastUpd_cons_of_mem l ls _ hmem]; exact hl1
        · show updAll now ls (applyUpd now l r) = _
          rw [applyUpd, if_pos hk, hl2, setFields_setFields]
      · refine ⟨l, lastUpd_cons_self_of_not_mem l ls _ hk.symm hmem, ?_⟩
        show updAll now ls (applyUpd now l r) = setFields now l r
        rw [applyUpd, if_pos hk]
        exact updAll_not_mem now ls (setFields now l r)
          (by rw [setFields_mls_id]; exact hmem)
    · have hmem : r.mls_id ∈ ls.map NormalizedListing.mls_id := by
        simp only [List.map_cons, List.mem_cons] at hr
        exact hr.resolve_left hk
      obtain ⟨l2, h1, h2⟩ := ih r hmem
      refine ⟨l2, ?_, ?_⟩
      · rw [lastUpd_cons_of_ne l ls _ (fun he => hk (he.symm))]; exact h1
      · show updAll now ls (applyUpd now l r) = _
        rw [applyUpd, if_neg hk]
        exact h2

theorem saveAll_pass_through (now : Nat) :
    ∀ (ls : List NormalizedListing) (db : List Row) (r : Row),
      r ∈ saveAll now db ls →
      r.mls_id ∉ ls.map NormalizedListing.mls_id → r ∈ db := by
  intro ls
  induction ls with
  | nil => intro db r h _; exact h
  | cons l ls ih =>
    intro db r h hk
    simp only [List.map_cons, List.mem_cons, not_or] at hk
    have h2 : r ∈ upsertListing now db l := ih (upsertListing now db l) r h hk.2
    by_cases hm : l.mls_id ∈ dbKeys db
    · rw [upsertListing_mem_branch now db l hm] at h2
      obtain ⟨r0, hr0, hr⟩ := List.mem_map.mp h2
      have hkey : r0.mls_id = r.mls_id := by
        rw [← hr, applyUpd_mls_id]
      rw [← hr, applyUpd, if_neg (by rw [hkey]; exact hk.1)]
      exact hr0
    · rw [upsertListing_new_branch now db l hm] at h2
      rcases List.mem_append.mp h2 with h3 | h3
      · exact h3
      · simp only [List.mem_singleton] at h3
        exact absurd (by rw [h3]; rfl) hk.1

theorem upsert_rowMatches (now : Nat) (db : List Row)
    (l : NormalizedListing) (r : Row) (h : r ∈ upsertListing now db l)
    (hk : r.mls_id = l.mls_id) : rowMatches l r := by
  by_cases hm : l.mls_id ∈ dbKeys db
  · rw [upsertListing_mem_branch now db l hm] at h
    obtain ⟨r0, hr0, hr⟩ := List.mem_map.mp h
    by_cases h0 : r0.mls_id = l.mls_id
    · rw [← hr, applyUpd, if_pos h0]
      exact setFields_rowMatches now l r0
    · rw [← hr, applyUpd_mls_id] at hk
      exact absurd hk h0
  · rw [upsertListing_new_branch now db l hm] at h
    rcases List.mem_append.mp h with h3 | h3
    · exact absurd ((mem_dbKeys db l.mls_id).mpr ⟨r, h3, hk⟩) hm
    · simp only [List.mem_singleton] at h3
      rw [h3]
      exact newRow_rowMatches now l

theorem saveAll_rowMatches (now : Nat) :
    ∀ (ls : List NormalizedListing) (db : List Row) (r : Row),
      r ∈ saveAll now db ls →
      r.mls_id ∈ ls.map NormalizedListing.mls_id →
      ∃ l, lastUpd ls r.mls_id = some l ∧ rowMatches l r := by
  intro ls
  induction ls with
  | nil => intro db r _ hk; simp at hk
  | cons l ls ih =>
    intro db r hr hk
    by_cases hmem : r.mls_id ∈ ls.map NormalizedListing.mls_id
    · obtain ⟨l2, h1, h2⟩ := ih (upsertListing now db l) r hr hmem
      exact ⟨l2, by rw [lastUpd_cons_of_mem l ls _ hmem]; exact h1, h2⟩
    · have hk1 : r.mls_id = l.mls_id := by
        simp only [List.map_cons, List.mem_cons] at hk
        exact hk.resolve_right hmem
      have h2 : r ∈ upsertListing now db l :=
        saveAll_pass_through now ls (upsertListing now db l) r hr hmem
      exact ⟨l, lastUpd_cons_self_of_not_mem l ls _ hk1.symm hmem,
        upsert_rowMatches now db l r h2 hk1⟩

theorem saveToDatabase_noFail (now batchSize : Nat) (db : List Row)
    (ls : List NormalizedListing) :
    (saveToDatabase now batchSize (fun _ => none) db ls).1 =
      saveAll now db ls ∧
    (saveToDatabase now batchSize (fun _ => none) db ls).2 = ls.length := by
  obtain ⟨h1, h2⟩ :=
    persistence_batch_isolation now batchSize (fun _ => none) db ls
  constructor
  · rw [h1]
    have hc : committedBatches (fun _ => none) (toBatches batchSize ls) =
        toBatches batchSize ls := by
      simp [committedBatches]
    rw [hc, toBatches_flatten]
    rfl
  · rw [h2]
    have hm : ((toBatches batchSize ls).map fun b =>
        match (fun _ : List NormalizedListing => (none : Option Nat)) b with
        | none => b.length
        | some k => min k b.length) =
        (toBatches batchSize ls).map List.length := by
      exact List.map_congr_left fun b _ => rfl
    rw [hm, toBatches_length_sum]

/-- C5: idempotent upsert on the external identifier.  Starting from a
store with at most one row per `mls_id` and no failing batches, after one
run of the persistence stage the store again has at most one row per
`mls_id`; running the stage a second time with identical data changes no
row count (no insert happens — every listing updates its existing row in
place), leaves every row unchanged except for the refreshed `updated_at`
timestamp, stamps `updated_at` of every touched row with the second run's
clock, and reports the full listing count as saved. -/
theorem idempotent_upsert (batchSize now1 now2 : Nat) (db0 : List Row)
    (ls : List NormalizedListing) (h0 : NodupKeys db0) :
    NodupKeys (saveToDatabase now1 batchSize (fun _ => none) db0 ls).1 ∧
    NodupKeys
      (saveToDatabase now2 batchSize (fun _ => none)
        (saveToDatabase now1 batchSize (fun _ => none) db0 ls).1 ls).1 ∧
    ((saveToDatabase now2 batchSize (fun _ => none)
        (saveToDatabase now1 batchSize (fun _ => none) db0 ls).1 ls).1).length =
      ((saveToDatabase now1 batchSize (fun _ => none) db0 ls).1).length ∧
    ((saveToDatabase now2 batchSize (fun _ => none)
        (saveToDatabase now1 batchSize (fun _ => none) db0 ls).1 ls).1).map
        eraseTimes =
      ((saveToDatabase now1 batchSize (fun _ => none) db0 ls).1).map
        eraseTimes ∧
    (∀ r ∈ (saveToDatabase now2 batchSize (fun _ => none)
        (saveToDatabase now1 batchSize (fun _ => none) db0 ls).1 ls).1,
      r.mls_id ∈ ls.map NormalizedListing.mls_id → r.updated_at = now2) ∧
    (saveToDatabase now2 batchSize (fun _ => none)
        (saveToDatabase now1 batchSize (fun _ => none) db0 ls).1 ls).2 =
      ls.length := by
  obtain ⟨e1, _⟩ := saveToDatabase_noFail now1 batchSize db0 ls
  obtain ⟨e2, ec2⟩ := saveToDatabase_noFail now2 batchSize
    ((saveToDatabase now1 batchSize (fun _ => none) db0 ls).1) ls
  rw [e1] at e2
  have hkeys : ∀ l ∈ ls, l.mls_id ∈ dbKeys (saveAll now1 db0 ls) :=
    fun l hl => listing_key_mem_saveAll now1 ls db0 l hl
  have hall : saveAll now2 (saveAll now1 db0 ls) ls =
      (saveAll now1 db0 ls).map (updAll now2 ls) :=
    saveAll_all_updates now2 ls (saveAll now1 db0 ls) hkeys
  have hnd1 : NodupKeys (saveAll now1 db0 ls) :=
    nodupKeys_saveAll now1 ls db0 h0
  refine ⟨?_, ?_, ?_, ?_, ?_, ?_⟩
  · rw [e1]; exact hnd1
  · rw [e1, e2]; exact nodupKeys_saveAll now2 ls (saveAll now1 db0 ls) hnd1
  · rw [e1, e2, hall, List.length_map]
  · rw [e1, e2, hall, List.map_map]
    refine List.map_congr_left ?_
    intro r hr
    show eraseTimes (updAll now2 ls r) = eraseTimes r
    by_cases hk : r.mls_id ∈ ls.map NormalizedListing.mls_id
    · obtain ⟨l, hl1, hl2⟩ := updAll_mem now2 ls r hk
      obtain ⟨l2, hF1, hF2⟩ := saveAll_rowMatches now1 ls db0 r hr hk
      rw [hl1] at hF1
      have : l = l2 := Option.some.inj hF1
      subst this
      rw [hl2, eraseTimes_setFields]
      exact hF2
    · rw [updAll_not_mem now2 ls r hk]
  · rw [e1, e2, hall]
    intro r hr hk
    obtain ⟨r0, hr0, hre⟩ := List.mem_map.mp hr
    have hk0 : r0.mls_id ∈ ls.map NormalizedListing.mls_id := by
      rw [← updAll_mls_id now2 ls r0, hre]
      exact hk
    obtain ⟨l, _, hl2⟩ := updAll_mem now2 ls r0 hk0
    rw [← hre, hl2]
    rfl
  · exact ec2

/-- Witness for C5: persisting one listing twice into an empty store
keeps the row count at one after the second run. -/
theorem idempotent_upsert_witness :
    ((saveToDatabase 2 100 (fun _ => none)
        (saveToDatabase 1 100 (fun _ => none) [] [nlSimple]).1
        [nlSimple]).1).length =
      ((saveToDatabase 1 100 (fun _ => none) [] [nlSimple]).1).length :=
  (idempotent_upsert 100 1 2 [] [nlSimple]
    (by simp [NodupKeys, dbKeys])).2.2.1

end Orbit
